import Mathlib

/-!
Shallow embedding of the werewolf game engine
(`backend/game/game_state.js` and `backend/game/game_manager.js`).

JavaScript `Map`s are modelled as insertion-ordered association lists
(`Map.set` replaces in place or appends, `Map.get` returns the value or
`undefined`, iteration follows insertion order), `Set`s as duplicate-free
insertion-ordered lists, `null`/`undefined` as `Option`, thrown exceptions
as `Except String` or an explicit error field.  Roles and phases are the
string literals the source uses.
-/

namespace WerewolfGame

/-- `Map.get`: first value stored under the key, or `undefined` (`none`). -/
def mget {α : Type} : List (String × α) → String → Option α
  | [], _ => none
  | (k, v) :: rest, key => if k = key then some v else mget rest key

/-- `Map.set`: replace the value in place if the key exists, else append. -/
def mset {α : Type} : List (String × α) → String → α → List (String × α)
  | [], key, val => [(key, val)]
  | (k, v) :: rest, key, val =>
    if k = key then (k, val) :: rest else (k, v) :: mset rest key val

/-- `Set.add`: append the element if absent. -/
def sadd (s : List String) (x : String) : List String :=
  if x ∈ s then s else s ++ [x]

/-- `Set.delete`: remove the element. -/
def sdel (s : List String) (x : String) : List String :=
  s.filter (fun y => y ≠ x)

/-- A player record, as built by `GameState.addPlayer`. -/
structure Player where
  id : String
  isAI : Bool
  name : String
  isAlive : Bool
  hasSpoken : Bool
deriving DecidableEq

/-- The `GameState` fields (`game_state.js`, constructor). -/
structure GameState where
  players : List (String × Player)
  roles : List (String × String)
  isNight : Bool
  currentDay : Nat
  phase : String
  deadPlayers : List String
  votes : List (String × String)
  currentSpeaker : Option String
  speakQueue : List String
  gameStarted : Bool
deriving DecidableEq

/-- Events emitted by `GameState` via `this.emit(...)`. -/
inductive GEvent where
  | gameStarted : GEvent
  | nightStarted : Nat → GEvent
  | dayStarted : Nat → GEvent
  | werewolvesPhaseStarted : List String → GEvent
  | seerPhaseStarted : String → GEvent
  | witchPhaseStarted : String → GEvent
  | nextSpeaker : String → GEvent
  | playerDied : String → GEvent
  | playerEliminated : String → GEvent
  | gameEnded : String → GEvent
  | voteCast : String → String → GEvent
deriving DecidableEq

/-- `GEvent.playerEliminated` recogniser, used to count eliminations. -/
def isElimEvent : GEvent → Bool
  | GEvent.playerEliminated _ => true
  | _ => false

/-- Living players: `Array.from(this.players.entries()).filter(([_, p]) => p.isAlive)`. -/
def livingEntries (s : GameState) : List (String × Player) :=
  s.players.filter (fun q => q.2.isAlive)

/-- `livingWerewolves` in `GameState.checkGameEnd` (lines 662-664):
living players whose role is `werewolf`. -/
def livingWerewolfCount (s : GameState) : Nat :=
  ((livingEntries s).filter (fun q => decide (mget s.roles q.1 = some "werewolf"))).length

/-- `livingVillagers` in `GameState.checkGameEnd` (lines 666-668):
living players whose role is not `werewolf` (an absent role also counts). -/
def livingNonWerewolfCount (s : GameState) : Nat :=
  ((livingEntries s).filter (fun q => decide (¬ mget s.roles q.1 = some "werewolf"))).length

/-- `GameState.checkGameEnd` (lines 658-681): returns whether the game
ended and the `gameEnded` events emitted along the way. -/
def checkGameEnd (s : GameState) : Bool × List GEvent :=
  if livingWerewolfCount s = 0 then (true, [GEvent.gameEnded "villagers"])
  else if livingNonWerewolfCount s = 0 then (true, [GEvent.gameEnded "werewolves"])
  else (false, [])

/-- `GameState.killPlayer` (lines 649-656): mark the player dead, record it
in `deadPlayers`, emit `playerDied`; no-op when the id is unknown. -/
def killPlayer (s : GameState) (pid : String) : GameState × List GEvent :=
  match mget s.players pid with
  | none => (s, [])
  | some _ =>
    ({ s with
        players := s.players.map (fun q =>
          if q.1 = pid then (q.1, { q.2 with isAlive := false }) else q),
        deadPlayers := sadd s.deadPlayers pid },
     [GEvent.playerDied pid])

/-- One tally step of `voteCount.set(t, (voteCount.get(t) || 0) + 1)`:
bump the count of `t`, keeping first-discovery order. -/
def bump : List (String × Nat) → String → List (String × Nat)
  | [], t => [(t, 1)]
  | (u, c) :: rest, t =>
    if u = t then (u, c + 1) :: rest else (u, c) :: bump rest t

/-- The vote tally of `GameState.processVotes` (lines 612-617): counts per
target in tally-discovery order (order of first vote for each target). -/
def tallyVotes (votes : List (String × String)) : List (String × Nat) :=
  votes.foldl (fun acc v => bump acc v.2) []

/-- The max-scan of `processVotes` (lines 620-627): fold over the tally
keeping `maxVotes` and the current `eliminated` candidate; an entry wins
only with a strictly higher count. -/
def scanMax : List (String × Nat) → Nat → Option String → Nat × Option String
  | [], m, w => (m, w)
  | (t, c) :: rest, m, w =>
    if c > m then scanMax rest c (some t) else scanMax rest m w

/-- The method calls a `GameState` method body can end in. -/
inductive Call where
  | startNight : Call
  | startDay : Call
  | announceDeaths : Call
  | processWerewolves : Call
  | processSeer : Call
  | processWitch : Call
  | processNextSpeaker : Call
  | processAllPlayersSpoken : Call
  | processVotes : Call
deriving DecidableEq

/-- Result of one method body: updated state, events emitted, and the
method invoked at the end (if any). -/
structure StepOut where
  state : GameState
  events : List GEvent
  next : Option Call
deriving DecidableEq

/-- `GameState.processVotes` (lines 611-647): tally, eliminate the scan
winner (JS truthiness: `if (eliminated)` fails for `null` and for the
empty string), clear the ballot, check game end, then move on. -/
def processVotesStep (s : GameState) : StepOut :=
  let voteCount := tallyVotes s.votes
  let eliminated := (scanMax voteCount 0 none).2
  let killed : GameState × List GEvent :=
    match eliminated with
    | some t =>
      if t ≠ "" then
        let k := killPlayer s t
        (k.1, k.2 ++ [GEvent.playerEliminated t])
      else (s, [])
    | none => (s, [])
  let s2 := { killed.1 with votes := [] }
  let ended := checkGameEnd s2
  ⟨s2, killed.2 ++ ended.2,
    if ended.1 then none
    else if s2.isNight then some Call.processSeer
    else some Call.startNight⟩

/-- `role === r && this.players.get(id).isAlive` filter over
`this.roles.entries()`; reading `isAlive` of a missing player throws. -/
def rolesFilterAlive (s : GameState) (role : String) :
    List (String × String) → Except String (List String)
  | [] => Except.ok []
  | (pid, r) :: rest =>
    if r = role then
      match mget s.players pid with
      | none => Except.error "TypeError: cannot read isAlive of undefined"
      | some p =>
        if p.isAlive then
          match rolesFilterAlive s role rest with
          | Except.error e => Except.error e
          | Except.ok tail => Except.ok (pid :: tail)
        else rolesFilterAlive s role rest
    else rolesFilterAlive s role rest

/-- `.find(([id, role]) => role === r && this.players.get(id).isAlive)`
over `this.roles.entries()`. -/
def firstAliveWithRole (s : GameState) (role : String) :
    List (String × String) → Except String (Option String)
  | [] => Except.ok none
  | (pid, r) :: rest =>
    if r = role then
      match mget s.players pid with
      | none => Except.error "TypeError: cannot read isAlive of undefined"
      | some p =>
        if p.isAlive then Except.ok (some pid) else firstAliveWithRole s role rest
    else firstAliveWithRole s role rest

/-- One `GameState` method body (`game_state.js`): the mutations it
performs, the events it emits, and the method it calls at the end.
`startDay` ends by calling `this.announceDeaths()`, a method the class
does not define, so that call raises a `TypeError`. -/
def step (s : GameState) : Call → Except String StepOut
  | Call.startNight =>
    Except.ok ⟨{ s with isNight := true, phase := "night" },
      [GEvent.nightStarted s.currentDay], some Call.processWerewolves⟩
  | Call.startDay =>
    Except.ok ⟨{ s with isNight := false, phase := "day", currentDay := s.currentDay + 1 },
      [GEvent.dayStarted (s.currentDay + 1)], some Call.announceDeaths⟩
  | Call.announceDeaths =>
    Except.error "TypeError: this.announceDeaths is not a function"
  | Call.processWerewolves =>
    match rolesFilterAlive s "werewolf" s.roles with
    | Except.error e => Except.error e
    | Except.ok ws =>
      Except.ok ⟨{ s with speakQueue := ws },
        [GEvent.werewolvesPhaseStarted ws], some Call.processNextSpeaker⟩
  | Call.processSeer =>
    match firstAliveWithRole s "seer" s.roles with
    | Except.error e => Except.error e
    | Except.ok (some pid) =>
      Except.ok ⟨{ s with currentSpeaker := some pid }, [GEvent.seerPhaseStarted pid], none⟩
    | Except.ok none => Except.ok ⟨s, [], some Call.processWitch⟩
  | Call.processWitch =>
    match firstAliveWithRole s "witch" s.roles with
    | Except.error e => Except.error e
    | Except.ok (some pid) =>
      Except.ok ⟨{ s with currentSpeaker := some pid }, [GEvent.witchPhaseStarted pid], none⟩
    | Except.ok none => Except.ok ⟨s, [], some Call.startDay⟩
  | Call.processNextSpeaker =>
    match s.speakQueue with
    | [] => Except.ok ⟨s, [], some Call.processAllPlayersSpoken⟩
    | x :: rest =>
      Except.ok ⟨{ s with currentSpeaker := some x, speakQueue := rest },
        [GEvent.nextSpeaker x], none⟩
  | Call.processAllPlayersSpoken =>
    Except.ok ⟨{ s with phase := "night" }, [], some Call.startNight⟩
  | Call.processVotes => Except.ok (processVotesStep s)

/-- Outcome of running a chain of method calls. -/
inductive Outcome where
  | finished : Outcome
  | errored : String → Outcome
  | fuelOut : Outcome
deriving DecidableEq

/-- Result of running a chain of method calls. -/
structure RunOut where
  state : GameState
  events : List GEvent
  outcome : Outcome
deriving DecidableEq

/-- Run the synchronous method-call chain; the mutual recursion in the
source can loop forever (for example night with no living werewolves),
hence the fuel. -/
def run : Nat → GameState → Option Call → RunOut
  | _, s, none => ⟨s, [], Outcome.finished⟩
  | 0, s, some _ => ⟨s, [], Outcome.fuelOut⟩
  | fuel + 1, s, some c =>
    match step s c with
    | Except.error e => ⟨s, [], Outcome.errored e⟩
    | Except.ok out =>
      let r := run fuel out.state out.next
      ⟨r.state, out.events ++ r.events, r.outcome⟩

/-- `GameState.vote` (lines 593-609): throws for a dead (or unknown)
voter before touching any state; otherwise records the vote (replacing a
prior one), emits `vote`, and calls `processVotes` exactly when the
number of ballot entries equals the number of living players. -/
def vote (s : GameState) (voterId targetId : String) :
    Except String (GameState × List GEvent × Option Call) :=
  match mget s.players voterId with
  | none => Except.error "TypeError: cannot read isAlive of undefined"
  | some p =>
    if p.isAlive then
      let s' : GameState := { s with votes := mset s.votes voterId targetId }
      let livingIds : List String := (s'.players.filter (fun q => q.2.isAlive)).map Prod.fst
      if s'.votes.length = livingIds.length then
        Except.ok (s', [GEvent.voteCast voterId targetId], some Call.processVotes)
      else
        Except.ok (s', [GEvent.voteCast voterId targetId], none)
    else Except.error "Dead players cannot vote"

/-! ### Role assignment (`GameState.assignRoles`, lines 463-493) -/

/-- `Math.ceil(numPlayers / 3)`, exact for naturals as `(n + 2) / 3`. -/
def numWerewolves (n : Nat) : Nat := (n + 2) / 3

/-- `numPlayers >= 6 ? 1 : 0`. -/
def numSeers (n : Nat) : Nat := if 6 ≤ n then 1 else 0

/-- `numPlayers >= 6 ? 1 : 0`. -/
def numWitches (n : Nat) : Nat := if 6 ≤ n then 1 else 0

/-- `numPlayers >= 9 ? 1 : 0`. -/
def numHunters (n : Nat) : Nat := if 9 ≤ n then 1 else 0

/-- `numPlayers - numWerewolves - numSeers - numWitches - numHunters`,
over the integers as in JavaScript. -/
def numVillagers (n : Nat) : Int :=
  (n : Int) - numWerewolves n - numSeers n - numWitches n - numHunters n

/-- The flat role pool, in source order (lines 475-481). -/
def rolePool (n : Nat) : List String :=
  List.replicate (numWerewolves n) "werewolf"
    ++ List.replicate (numVillagers n).toNat "villager"
    ++ List.replicate (numSeers n) "seer"
    ++ List.replicate (numWitches n) "witch"
    ++ List.replicate (numHunters n) "hunter"

/-- `[roles[i], roles[j]] = [roles[j], roles[i]]` (both indices are in
bounds at every use in the shuffle loop). -/
def swapIdx (l : List String) (i j : Nat) : List String :=
  match l[i]?, l[j]? with
  | some a, some b => (l.set i b).set j a
  | _, _ => l

/-- The Fisher-Yates loop `for (i = len-1; i > 0; i--)`; `js i` supplies
the random draw at index `i`, reduced mod `i + 1` as
`Math.floor(Math.random() * (i + 1))` guarantees. -/
def fyAux (js : Nat → Nat) : Nat → List String → List String
  | 0, l => l
  | i + 1, l => fyAux js i (swapIdx l (i + 1) (js (i + 1) % (i + 2)))

/-- The shuffle of lines 484-487. -/
def fisherYates (js : Nat → Nat) (l : List String) : List String :=
  fyAux js (l.length - 1) l

/-- `GameState.assignRoles` (lines 463-493): build the pool, shuffle,
assign role `i` to player `i` in roster order via `roles.set`. -/
def assignRoles (js : Nat → Nat) (s : GameState) : GameState :=
  let playerIds := s.players.map Prod.fst
  let shuffled := fisherYates js (rolePool playerIds.length)
  { s with roles := (playerIds.zip shuffled).foldl (fun acc q => mset acc q.1 q.2) s.roles }

/-! ### Manager side (`game_manager.js`) -/

/-- An AI character as the manager sees it.  The context buffer and the
known-information log are the only parts the claims touch.
Modelled from the spec: `AICharacter` itself (`ai_character.js`) is not in
the sources; per the spec, `updateGameContext` appends a narration line to
the provider's context buffer and `addKnownInformation` records a private
fact for that actor. -/
structure Character where
  id : String
  name : String
  role : String
  personality : String
  context : List String
  knownInfo : List (String × String)
deriving DecidableEq

/-- `this.witchPotions` entries: `{ antidote: true, poison: true }`. -/
structure WitchPotion where
  antidote : Bool
  poison : Bool
deriving DecidableEq

/-- The structured `{save, kill}` answer of `makeWitchDecision`. -/
structure WitchDecision where
  save : Bool
  kill : Option String
deriving DecidableEq

/-- The mutable manager state the claims need. -/
structure ManagerSt where
  game : GameState
  characters : List (String × Character)
  witchPotions : List (String × WitchPotion)
deriving DecidableEq

/-- `GameManager.getGameContext` (lines 361-368). -/
structure GameContext where
  day : Nat
  isNight : Bool
  phase : String
  livingPlayers : List Player
deriving DecidableEq

/-- A JavaScript collection value: either a `Map` or an `Array`.  Only
arrays provide `.filter`/`.map`; calling them on a `Map` throws. -/
inductive JsColl where
  | jsMap : List (String × Player) → JsColl
  | jsArray : List Player → JsColl
deriving DecidableEq

/-- `GameManager.getLivingPlayers` (lines 353-359): returns a **Map** of
the living players. -/
def getLivingPlayers (s : GameState) : JsColl :=
  JsColl.jsMap (s.players.filter (fun q => q.2.isAlive))

/-- `.filter` method dispatch: arrays filter, maps have no such method. -/
def collFilter (c : JsColl) (f : Player → Bool) : Except String JsColl :=
  match c with
  | JsColl.jsArray l => Except.ok (JsColl.jsArray (l.filter f))
  | JsColl.jsMap _ => Except.error "TypeError: .filter is not a function"

/-- `.map(p => ...)` method dispatch to a string-valued callback: arrays
map, maps have no such method. -/
def collMapNames (c : JsColl) (f : Player → String) : Except String (List String) :=
  match c with
  | JsColl.jsArray l => Except.ok (l.map f)
  | JsColl.jsMap _ => Except.error "TypeError: .map is not a function"

def getGameContext (s : GameState) : GameContext :=
  ⟨s.currentDay, s.isNight, s.phase,
    (s.players.filter (fun q => q.2.isAlive)).map Prod.snd⟩

/-- The `speaker_info` transport message (`speak`, lines 373-378). -/
structure SpeakerInfo where
  speaker : String
  name : Option String
  role : Option String
deriving DecidableEq

/-- The `game_log` transport message (`speak`, lines 384-390). -/
structure GameLogMsg where
  speaker : Option String
  message : String
  timestamp : String
  isPrivate : Bool
deriving DecidableEq

/-- What one `speak` call produces: the two transport messages (in send
order), the synthesis request (if the message is not narration-exempt),
and the updated AI characters. -/
structure SpeakOut where
  si : SpeakerInfo
  gl : GameLogMsg
  tts : Option String
  characters : List (String × Character)
deriving DecidableEq

/-- `GameManager.speak` (lines 370-417).  `skip` models the
`skipTTSPatterns` test, a function of the message only; `ts` models
`new Date().toISOString()`.  The audience check is
`!targetPlayers || targetPlayers.includes(character.id)`. -/
def speak (chars : List (String × Character)) (s : GameState) (skip : String → Bool)
    (speaker message : String) (targetPlayers : Option (List String)) (ts : String) :
    SpeakOut :=
  let si : SpeakerInfo :=
    { speaker := speaker
      name := if speaker = "Moderator" then some "Moderator"
              else (mget s.players speaker).map (fun p => p.name)
      role := if speaker = "Moderator" then some "Moderator"
              else mget s.roles speaker }
  let gl : GameLogMsg :=
    { speaker := si.name, message := message, timestamp := ts,
      isPrivate := targetPlayers.isSome }
  let tts : Option String := if skip message then none else some message
  let chars' := chars.map (fun q =>
    let inAudience :=
      match targetPlayers with
      | none => true
      | some l => l.contains q.2.id
    if inAudience then
      (q.1, { q.2 with context := q.2.context ++ [speaker ++ ": " ++ message] })
    else q)
  ⟨si, gl, tts, chars'⟩

/-- Result of a manager event handler: final game state, characters and
potions, the `game_log` lines it sent, the `GameState` events raised by
state mutations it performed, and the exception that aborted it (if any,
with all mutations made before the throw kept). -/
structure MgrOut where
  game : GameState
  characters : List (String × Character)
  potions : List (String × WitchPotion)
  logs : List GameLogMsg
  events : List GEvent
  err : Option String
deriving DecidableEq

/-- The werewolf vote-collection loop of `handleWerewolvesPhase`
(lines 198-210): for each werewolf with an AI character the code calls
`.filter` on the Map returned by `getLivingPlayers`. -/
def wwLoop (g : GameState) (chars : List (String × Character)) (allWolves : List String)
    (decideKill : String → List String → GameContext → Option String) :
    List String → List (String × String) → Except String (List (String × String))
  | [], acc => Except.ok acc
  | w :: rest, acc =>
    match mget chars w with
    | none => wwLoop g chars allWolves decideKill rest acc
    | some _ =>
      match collFilter (getLivingPlayers g) (fun p => ! allWolves.contains p.id) with
      | Except.error e => Except.error e
      | Except.ok filtered =>
        match collMapNames filtered (fun p => p.name) with
        | Except.error e => Except.error e
        | Except.ok names =>
          match decideKill w names (getGameContext g) with
          | some t =>
            if t ≠ "" then wwLoop g chars allWolves decideKill rest (mset acc w t)
            else wwLoop g chars allWolves decideKill rest acc
          | none => wwLoop g chars allWolves decideKill rest acc

/-- `GameManager.handleWerewolvesPhase` (lines 194-232).  `decideKill`
stands for `character.makeWerewolfKillDecision`. -/
def handleWerewolvesPhase (m : ManagerSt) (skip : String → Bool) (ts : String)
    (werewolves : List String)
    (decideKill : String → List String → GameContext → Option String) : MgrOut :=
  let o1 := speak m.characters m.game skip "Moderator"
    "Werewolves, open your eyes and choose your victim." (some werewolves) ts
  match wwLoop m.game o1.characters werewolves decideKill werewolves [] with
  | Except.error e =>
    ⟨m.game, o1.characters, m.witchPotions, [o1.gl], [], some e⟩
  | Except.ok votes =>
    let victim := (scanMax (tallyVotes votes) 0 none).2
    match victim with
    | some t =>
      if t ≠ "" then
        let k := killPlayer m.game t
        let o2 := speak o1.characters k.1 skip "Moderator"
          "The werewolves have made their choice." (some werewolves) ts
        ⟨k.1, o2.characters, m.witchPotions, [o1.gl, o2.gl], k.2, none⟩
      else ⟨m.game, o1.characters, m.witchPotions, [o1.gl], [], none⟩
    | none => ⟨m.game, o1.characters, m.witchPotions, [o1.gl], [], none⟩

/-- `GameManager.handleSeerPhase` (lines 234-257).  `decideCheck` stands
for `character.makeSeerCheckDecision`; the handler calls `.filter` on the
Map returned by `getLivingPlayers` before that decision is consulted. -/
def handleSeerPhase (m : ManagerSt) (skip : String → Bool) (ts : String)
    (seerId : String) (decideCheck : List String → GameContext → Option String) : MgrOut :=
  match mget m.characters seerId with
  | none => ⟨m.game, m.characters, m.witchPotions, [], [], none⟩
  | some _ =>
    let o1 := speak m.characters m.game skip "Moderator"
      "Seer, open your eyes and choose a player to investigate." (some [seerId]) ts
    match collFilter (getLivingPlayers m.game) (fun p => ! (p.id == seerId)) with
    | Except.error e =>
      ⟨m.game, o1.characters, m.witchPotions, [o1.gl], [], some e⟩
    | Except.ok filtered =>
      match collMapNames filtered (fun p => p.name) with
      | Except.error e =>
        ⟨m.game, o1.characters, m.witchPotions, [o1.gl], [], some e⟩
      | Except.ok names =>
        match decideCheck names (getGameContext m.game) with
        | some t =>
          if t ≠ "" then
            let targetRole := mget m.game.roles t
            let chars2 := o1.characters.map (fun q =>
              if q.1 = seerId then
                (q.1, { q.2 with knownInfo :=
                  q.2.knownInfo ++ [("Player " ++ t ++ " Role", targetRole.getD "undefined")] })
              else q)
            let o2 := speak chars2 m.game skip "Moderator"
              ("Player " ++ t ++ " is a " ++ targetRole.getD "undefined" ++ ".") (some [seerId]) ts
            let o3 := speak o2.characters m.game skip "Moderator"
              "Seer, close your eyes." (some [seerId]) ts
            ⟨m.game, o3.characters, m.witchPotions, [o1.gl, o2.gl, o3.gl], [], none⟩
          else
            let o3 := speak o1.characters m.game skip "Moderator"
              "Seer, close your eyes." (some [seerId]) ts
            ⟨m.game, o3.characters, m.witchPotions, [o1.gl, o3.gl], [], none⟩
        | none =>
          let o3 := speak o1.characters m.game skip "Moderator"
            "Seer, close your eyes." (some [seerId]) ts
          ⟨m.game, o3.characters, m.witchPotions, [o1.gl, o3.gl], [], none⟩

/-- `GameManager.handleWitchPhase` (lines 259-294).  `decision` stands for
the answer `character.makeWitchDecision` would return; the code evaluates
`livingPlayers.map(p => p.name)` on the **Map** returned by
`getLivingPlayers` while building that call's arguments, so the decision
block throws before any decision is consulted.  The poison branch is
nested inside the `potions.antidote && deadPlayers.size > 0` guard, and
the save branch only deletes from `deadPlayers` (it does not reset
`isAlive`). -/
def handleWitchPhase (m : ManagerSt) (skip : String → Bool) (ts : String)
    (witchId : String) (decision : WitchDecision) : MgrOut :=
  match mget m.characters witchId with
  | none => ⟨m.game, m.characters, m.witchPotions, [], [], none⟩
  | some _ =>
    match mget m.witchPotions witchId with
    | none => ⟨m.game, m.characters, m.witchPotions, [], [], none⟩
    | some potions =>
      let o1 := speak m.characters m.game skip "Moderator"
        "Witch, open your eyes." (some [witchId]) ts
      if potions.antidote && ! m.game.deadPlayers.isEmpty then
        let killedPlayer := m.game.deadPlayers.headD ""
        match collMapNames (getLivingPlayers m.game) (fun p => p.name) with
        | Except.error e =>
          ⟨m.game, o1.characters, m.witchPotions, [o1.gl], [], some e⟩
        | Except.ok _names =>
          let afterSave :=
            if decision.save then
              let g' : GameState :=
                { m.game with deadPlayers := sdel m.game.deadPlayers killedPlayer }
              let o2 := speak o1.characters g' skip "Moderator"
                "The witch has used the antidote." (some [witchId]) ts
              (g', { potions with antidote := false }, [o2.gl], o2.characters)
            else (m.game, potions, ([] : List GameLogMsg), o1.characters)
          match decision.kill with
          | some t =>
            if t ≠ "" && potions.poison then
              let k := killPlayer afterSave.1 t
              let pot2 : WitchPotion := { afterSave.2.1 with poison := false }
              let o3 := speak afterSave.2.2.2 k.1 skip "Moderator"
                "The witch has used the poison." (some [witchId]) ts
              let o4 := speak o3.characters k.1 skip "Moderator"
                "Witch, close your eyes." (some [witchId]) ts
              ⟨k.1, o4.characters, mset m.witchPotions witchId pot2,
                [o1.gl] ++ afterSave.2.2.1 ++ [o3.gl, o4.gl], k.2, none⟩
            else
              let o4 := speak afterSave.2.2.2 afterSave.1 skip "Moderator"
                "Witch, close your eyes." (some [witchId]) ts
              ⟨afterSave.1, o4.characters, mset m.witchPotions witchId afterSave.2.1,
                [o1.gl] ++ afterSave.2.2.1 ++ [o4.gl], [], none⟩
          | none =>
            let o4 := speak afterSave.2.2.2 afterSave.1 skip "Moderator"
              "Witch, close your eyes." (some [witchId]) ts
            ⟨afterSave.1, o4.characters, mset m.witchPotions witchId afterSave.2.1,
              [o1.gl] ++ afterSave.2.2.1 ++ [o4.gl], [], none⟩
      else
        let o5 := speak o1.characters m.game skip "Moderator"
          "Witch, close your eyes." (some [witchId]) ts
        ⟨m.game, o5.characters, m.witchPotions, [o1.gl, o5.gl], [], none⟩

/-- `GameManager.handleHumanInput` (lines 420-426): only the current
speaker's input is processed (spoken, then the speaker queue advanced);
anything else is silently dropped. -/
def handleHumanInput (fuel : Nat) (m : ManagerSt) (skip : String → Bool)
    (playerId message ts : String) : MgrOut :=
  if m.game.currentSpeaker = some playerId then
    let o := speak m.characters m.game skip playerId message none ts
    let r := run fuel m.game (some Call.processNextSpeaker)
    ⟨r.state, o.characters, m.witchPotions, [o.gl], r.events,
      match r.outcome with
      | Outcome.errored e => some e
      | _ => none⟩
  else ⟨m.game, m.characters, m.witchPotions, [], [], none⟩

/-! ### Concrete states used by witnesses and counterexamples -/

/-- An AI player record as `addPlayer(pid, true)` builds it. -/
def mkP (pid : String) (alive : Bool) : Player :=
  ⟨pid, true, "Player " ++ pid, alive, false⟩

/-- A plain AI character. -/
def mkC (cid role : String) : Character :=
  ⟨cid, "Player " ++ cid, role, "", [], []⟩

/-- A TTS skip predicate that never skips. -/
def skip0 : String → Bool := fun _ => false

/-- Three living voters; `b` gets two votes, `a` one. -/
def sW : GameState :=
  ⟨[("a", mkP "a" true), ("b", mkP "b" true), ("c", mkP "c" true)],
   [("a", "werewolf"), ("b", "villager"), ("c", "villager")],
   false, 1, "day", [], [("a", "b"), ("b", "b"), ("c", "a")], none, [], true⟩

/-- A state whose only player is a dead villager. -/
def sAllDead : GameState :=
  ⟨[("p1", mkP "p1" false)], [("p1", "villager")],
   false, 1, "day", ["p1"], [], none, [], true⟩

/-- A stale ballot: dead `a` still has a recorded vote while `b` and `c`
are the living players. -/
def s5 : GameState :=
  ⟨[("a", mkP "a" false), ("b", mkP "b" true), ("c", mkP "c" true)],
   [("a", "villager"), ("b", "villager"), ("c", "werewolf")],
   false, 1, "day", ["a"], [("a", "b")], none, [], true⟩

/-- A state in which `gameEnded('villagers')` has just been emitted: the
lone werewolf is dead. -/
def sEnd : GameState :=
  ⟨[("w1", mkP "w1" false), ("v1", mkP "v1" true)],
   [("w1", "werewolf"), ("v1", "villager")],
   false, 2, "day", ["w1"], [], none, [], true⟩

/-- A day state whose speaker queue has drained. -/
def s7 : GameState :=
  ⟨[("ai_1", mkP "ai_1" true), ("ai_2", mkP "ai_2" true)],
   [("ai_1", "werewolf"), ("ai_2", "villager")],
   false, 1, "day", [], [], none, [], true⟩

/-- Same day state with one speaker still queued. -/
def s7b : GameState := { s7 with speakQueue := ["ai_2"] }

/-- Seven living players with no roles assigned yet. -/
def s4 : GameState :=
  ⟨[("p1", mkP "p1" true), ("p2", mkP "p2" true), ("p3", mkP "p3" true),
    ("p4", mkP "p4" true), ("p5", mkP "p5" true), ("p6", mkP "p6" true),
    ("p7", mkP "p7" true)],
   [], false, 0, "waiting", [], [], none, [], false⟩

/-- A degenerate random stream for the shuffle. -/
def js0 : Nat → Nat := fun _ => 0

/-- Witch scenario: living AI witch `ai_1` with both potions, `ai_2` died
this night, `ai_3` is a living poison candidate. -/
def mC3 : ManagerSt :=
  ⟨⟨[("ai_1", mkP "ai_1" true), ("ai_2", mkP "ai_2" false), ("ai_3", mkP "ai_3" true)],
    [("ai_1", "witch"), ("ai_2", "villager"), ("ai_3", "werewolf")],
    true, 1, "night", ["ai_2"], [], some "ai_1", [], true⟩,
   [("ai_1", mkC "ai_1" "witch")],
   [("ai_1", ⟨true, true⟩)]⟩

/-- Same scenario but the antidote is already spent and only the poison
remains. -/
def mC3b : ManagerSt := { mC3 with witchPotions := [("ai_1", ⟨false, true⟩)] }

/-- A witch decision that wants to save the victim and poison `ai_3`. -/
def dec3 : WitchDecision := ⟨true, some "ai_3"⟩

/-- A decision provider that never picks a target. -/
def dk0 : String → List String → GameContext → Option String := fun _ _ _ => none

/-- A seer decision provider that never picks a target. -/
def dc0 : List String → GameContext → Option String := fun _ _ => none

/-- Human werewolf `h1` (no AI character registered), alone and alive. -/
def m9 : ManagerSt :=
  ⟨⟨[("h1", ⟨"h1", false, "Human Player", true, false⟩)],
    [("h1", "werewolf")],
    true, 1, "night", [], [], none, ["h1"], true⟩,
   [], []⟩

/-- An AI werewolf `ai_1` (with a character) and an AI seer `ai_2`. -/
def m9w : ManagerSt :=
  ⟨⟨[("ai_1", mkP "ai_1" true), ("ai_2", mkP "ai_2" true), ("ai_3", mkP "ai_3" true)],
    [("ai_1", "werewolf"), ("ai_2", "seer"), ("ai_3", "villager")],
    true, 1, "night", [], [], none, [], true⟩,
   [("ai_1", mkC "ai_1" "werewolf"), ("ai_2", mkC "ai_2" "seer")],
   []⟩

/-- The human `h1` is the current speaker; `ai_1` is queued next. -/
def m8 : ManagerSt :=
  ⟨⟨[("h1", ⟨"h1", false, "Human Player", true, false⟩), ("ai_1", mkP "ai_1" true)],
    [("h1", "villager"), ("ai_1", "werewolf")],
    false, 1, "day", [], [], some "h1", ["ai_1"], true⟩,
   [("ai_1", mkC "ai_1" "werewolf")],
   []⟩

/-! ### Association-list lemmas -/

theorem mget_mset_self {α : Type} (l : List (String × α)) (k : String) (v : α) :
    mget (mset l k v) k = some v := by
  induction l with
  | nil => simp [mset, mget]
  | cons q rest ih =>
    obtain ⟨a, b⟩ := q
    by_cases h : a = k
    · subst h
      simp [mset, mget]
    · simp [mset, mget, h, ih]

theorem mget_mset_ne {α : Type} (l : List (String × α)) (k k' : String) (v : α)
    (h : k' ≠ k) : mget (mset l k v) k' = mget l k' := by
  induction l with
  | nil => simp [mset, mget, Ne.symm h]
  | cons q rest ih =>
    obtain ⟨a, b⟩ := q
    by_cases ha : a = k
    · subst ha
      simp [mset, mget, Ne.symm h]
    · by_cases hb : a = k'
      · subst hb
        simp [mset, mget, ha]
      · simp [mset, mget, ha, hb, ih]

theorem mget_eq_none_iff {α : Type} (l : List (String × α)) (k : String) :
    mget l k = none ↔ k ∉ l.map Prod.fst := by
  induction l with
  | nil => simp [mget]
  | cons q rest ih =>
    obtain ⟨a, b⟩ := q
    by_cases ha : a = k
    · subst ha
      simp [mget]
    · simp [mget, ha, Ne.symm ha, ih]

theorem mem_keys_exists_mget {α : Type} (l : List (String × α)) (k : String)
    (h : k ∈ l.map Prod.fst) : ∃ v, mget l k = some v := by
  rcases he : mget l k with _ | v
  · exact absurd ((mget_eq_none_iff l k).mp he) (by simp [h])
  · exact ⟨v, rfl⟩

theorem mem_of_mget {α : Type} (l : List (String × α)) (k : String) (v : α)
    (h : mget l k = some v) : (k, v) ∈ l := by
  induction l with
  | nil => simp [mget] at h
  | cons q rest ih =>
    obtain ⟨a, b⟩ := q
    by_cases ha : a = k
    · subst ha
      simp [mget] at h
      simp [h]
    · simp [mget, ha] at h
      simp [ih h]

theorem mget_of_mem_nodup {α : Type} (l : List (String × α)) (k : String) (v : α)
    (hnd : (l.map Prod.fst).Nodup) (h : (k, v) ∈ l) : mget l k = some v := by
  induction l with
  | nil => simp at h
  | cons q rest ih =>
    obtain ⟨a, b⟩ := q
    rw [List.map_cons] at hnd
    obtain ⟨hnotin, hrest⟩ := List.nodup_cons.mp hnd
    rcases List.mem_cons.mp h with h | h
    · obtain ⟨h1, h2⟩ := Prod.ext_iff.mp h
      simp at h1 h2
      subst h1
      subst h2
      simp [mget]
    · have hak : ¬ a = k := by
        intro e
        subst e
        exact hnotin (by simpa using List.mem_map_of_mem Prod.fst h)
      simp [mget, hak, ih hrest h]

theorem mget_map_if_self {α : Type} (l : List (String × α)) (pid : String) (f : α → α) :
    mget (l.map (fun q => if q.1 = pid then (q.1, f q.2) else q)) pid
      = (mget l pid).map f := by
  induction l with
  | nil => simp [mget]
  | cons q rest ih =>
    obtain ⟨a, b⟩ := q
    rw [List.map_cons]
    by_cases ha : a = pid
    · subst ha
      have hred : (if (a, b).1 = a then ((a, b).1, f (a, b).2) else (a, b))
          = (a, f b) := by simp
      rw [hred]
      simp [mget]
    · have hred : (if (a, b).1 = pid then ((a, b).1, f (a, b).2) else (a, b))
          = (a, b) := by simp [ha]
      rw [hred]
      simp [mget, ha, ih]

theorem mget_map_if_ne {α : Type} (l : List (String × α)) (pid k : String) (f : α → α)
    (h : k ≠ pid) :
    mget (l.map (fun q => if q.1 = pid then (q.1, f q.2) else q)) k = mget l k := by
  induction l with
  | nil => simp [mget]
  | cons q rest ih =>
    obtain ⟨a, b⟩ := q
    rw [List.map_cons]
    by_cases ha : a = pid
    · subst ha
      have hred : (if (a, b).1 = a then ((a, b).1, f (a, b).2) else (a, b))
          = (a, f b) := by simp
      rw [hred]
      simp [mget, Ne.symm h, ih]
    · have hred : (if (a, b).1 = pid then ((a, b).1, f (a, b).2) else (a, b))
          = (a, b) := by simp [ha]
      rw [hred]
      by_cases hk : a = k
      · subst hk
        simp [mget]
      · simp [mget, hk, ih]

/-! ### Tally lemmas -/

theorem bump_keys (l : List (String × Nat)) (t : String) :
    (bump l t).map Prod.fst
      = if t ∈ l.map Prod.fst then l.map Prod.fst else l.map Prod.fst ++ [t] := by
  induction l with
  | nil => simp [bump]
  | cons q rest ih =>
    obtain ⟨a, c⟩ := q
    by_cases ha : a = t
    · subst ha
      simp [bump]
    · by_cases ht : t ∈ rest.map Prod.fst
      · simp [bump, ha, Ne.symm ha, ht, ih]
      · simp [bump, ha, Ne.symm ha, ht, ih]

theorem bump_nodup (l : List (String × Nat)) (t : String)
    (h : (l.map Prod.fst).Nodup) : ((bump l t).map Prod.fst).Nodup := by
  rw [bump_keys]
  by_cases ht : t ∈ l.map Prod.fst
  · simpa [ht]
  · rw [if_neg ht]
    exact ((List.perm_append_singleton t _).nodup_iff).mpr (List.nodup_cons.mpr ⟨ht, h⟩)

theorem mget_bump_self (l : List (String × Nat)) (t : String) :
    mget (bump l t) t = some ((mget l t).getD 0 + 1) := by
  induction l with
  | nil => simp [bump, mget]
  | cons q rest ih =>
    obtain ⟨a, c⟩ := q
    by_cases ha : a = t
    · subst ha
      simp [bump, mget]
    · simp [bump, mget, ha, ih]

theorem mget_bump_ne (l : List (String × Nat)) (t u : String) (h : u ≠ t) :
    mget (bump l t) u = mget l u := by
  induction l with
  | nil => simp [bump, mget, Ne.symm h]
  | cons q rest ih =>
    obtain ⟨a, c⟩ := q
    by_cases ha : a = t
    · subst ha
      simp [bump, mget, Ne.symm h]
    · by_cases hu : a = u
      · subst hu
        simp [bump, mget, ha]
      · simp [bump, mget, ha, hu, ih]

theorem tally_fold_count (vs : List (String × String)) :
    ∀ (acc : List (String × Nat)) (t : String),
      (mget (vs.foldl (fun a v => bump a v.2) acc) t).getD 0
        = (mget acc t).getD 0 + (vs.map Prod.snd).count t := by
  induction vs with
  | nil => simp
  | cons v rest ih =>
    intro acc t
    simp only [List.foldl_cons, List.map_cons]
    rw [ih (bump acc v.2) t]
    by_cases hv : v.2 = t
    · rw [hv, mget_bump_self, List.count_cons_self]
      simp
      omega
    · rw [mget_bump_ne acc v.2 t (fun e => hv e.symm),
        List.count_cons_of_ne (fun e => hv e.symm)]

theorem tally_fold_keys (vs : List (String × String)) :
    ∀ (acc : List (String × Nat)) (t : String),
      t ∈ (vs.foldl (fun a v => bump a v.2) acc).map Prod.fst
        ↔ t ∈ acc.map Prod.fst ∨ t ∈ vs.map Prod.snd := by
  induction vs with
  | nil => simp
  | cons v rest ih =>
    intro acc t
    simp only [List.foldl_cons, List.map_cons, List.mem_cons]
    rw [ih (bump acc v.2) t, bump_keys]
    by_cases hv : v.2 ∈ acc.map Prod.fst
    · rw [if_pos hv]
      constructor
      · rintro (h | h)
        · exact Or.inl h
        · exact Or.inr (Or.inr h)
      · rintro (h | h | h)
        · exact Or.inl h
        · exact Or.inl (by rw [h]; exact hv)
        · exact Or.inr h
    · rw [if_neg hv]
      constructor
      · rintro (h | h)
        · rcases List.mem_append.mp h with h' | h'
          · exact Or.inl h'
          · exact Or.inr (Or.inl (by simpa using h'))
        · exact Or.inr (Or.inr h)
      · rintro (h | h | h)
        · exact Or.inl (List.mem_append.mpr (Or.inl h))
        · exact Or.inl (List.mem_append.mpr (Or.inr (by simp [h])))
        · exact Or.inr h

theorem tally_fold_nodup (vs : List (String × String)) :
    ∀ acc : List (String × Nat), (acc.map Prod.fst).Nodup →
      ((vs.foldl (fun a v => bump a v.2) acc).map Prod.fst).Nodup := by
  induction vs with
  | nil => exact fun _ h => h
  | cons v rest ih =>
    intro acc h
    exact ih (bump acc v.2) (bump_nodup acc v.2 h)

theorem tallyVotes_count (vs : List (String × String)) (t : String) :
    (mget (tallyVotes vs) t).getD 0 = (vs.map Prod.snd).count t := by
  have := tally_fold_count vs [] t
  simpa [tallyVotes, mget] using this

theorem tallyVotes_nodup (vs : List (String × String)) :
    ((tallyVotes vs).map Prod.fst).Nodup :=
  tally_fold_nodup vs [] (by simp)

theorem tallyVotes_keys (vs : List (String × String)) (t : String) :
    t ∈ (tallyVotes vs).map Prod.fst ↔ t ∈ vs.map Prod.snd := by
  have := tally_fold_keys vs [] t
  simpa [tallyVotes] using this

theorem tallyVotes_entry_count (vs : List (String × String)) (t : String) (c : Nat)
    (h : (t, c) ∈ tallyVotes vs) : c = (vs.map Prod.snd).count t := by
  have hg := mget_of_mem_nodup (tallyVotes vs) t c (tallyVotes_nodup vs) h
  have := tallyVotes_count vs t
  rw [hg] at this
  simpa using this

theorem tallyVotes_entry_pos (vs : List (String × String)) (t : String) (c : Nat)
    (h : (t, c) ∈ tallyVotes vs) : 0 < c := by
  rw [tallyVotes_entry_count vs t c h]
  refine List.count_pos_iff.mpr ?_
  exact (tallyVotes_keys vs t).mp (List.mem_map_of_mem Prod.fst h)

/-! ### Scan lemmas -/

theorem scanMax_low (l : List (String × Nat)) :
    ∀ (m : Nat) (w : Option String), (∀ p ∈ l, p.2 ≤ m) → scanMax l m w = (m, w) := by
  induction l with
  | nil => intro m w _; rfl
  | cons q rest ih =>
    intro m w h
    obtain ⟨t, c⟩ := q
    have hc : c ≤ m := h (t, c) (by simp)
    have hng : ¬ c > m := by omega
    simp only [scanMax, if_neg hng]
    exact ih m w (fun p hp => h p (by simp [hp]))

theorem scanMax_high (l : List (String × Nat)) :
    ∀ (m : Nat) (w : Option String), (∃ p ∈ l, m < p.2) →
      ∃ l1 t c l2, l = l1 ++ (t, c) :: l2 ∧ scanMax l m w = (c, some t) ∧ m < c
        ∧ (∀ p ∈ l1, p.2 < c) ∧ (∀ p ∈ l2, p.2 ≤ c) := by
  induction l with
  | nil => rintro m w ⟨p, hp, _⟩; simp at hp
  | cons q rest ih =>
    intro m w hex
    obtain ⟨t0, c0⟩ := q
    by_cases h : c0 > m
    · by_cases h2 : ∃ p ∈ rest, c0 < p.2
      · obtain ⟨l1, t, c, l2, heq, hscan, hlt, hl1, hl2⟩ := ih c0 (some t0) h2
        refine ⟨(t0, c0) :: l1, t, c, l2, by simp [heq], ?_, lt_trans h hlt, ?_, hl2⟩
        · simp only [scanMax, if_pos h]
          exact hscan
        · intro p hp
          rcases List.mem_cons.mp hp with hp | hp
          · simpa [hp] using hlt
          · exact hl1 p hp
      · push_neg at h2
        refine ⟨[], t0, c0, rest, rfl, ?_, h, by simp, h2⟩
        simp only [scanMax, if_pos h, List.nil_append]
        exact scanMax_low rest c0 (some t0) h2
    · obtain ⟨p, hp, hmp⟩ := hex
      rcases List.mem_cons.mp hp with hph | hpt
      · exact absurd hmp (by simp [hph]; omega)
      · obtain ⟨l1, t, c, l2, heq, hscan, hlt, hl1, hl2⟩ := ih m w ⟨p, hpt, hmp⟩
        refine ⟨(t0, c0) :: l1, t, c, l2, by simp [heq], ?_, hlt, ?_, hl2⟩
        · simp only [scanMax, if_neg h]
          exact hscan
        · intro p' hp'
          rcases List.mem_cons.mp hp' with hp' | hp'
          · have hcc : c0 < c := by omega
            simpa [hp'] using hcc
          · exact hl1 p' hp'

/-- `checkGameEnd` emits no elimination events. -/
theorem checkGameEnd_events_no_elim (s : GameState) :
    ∀ e ∈ (checkGameEnd s).2, isElimEvent e = false := by
  unfold checkGameEnd
  split
  · intro e he
    simp at he
    simp [he, isElimEvent]
  · split
    · intro e he
      simp at he
      simp [he, isElimEvent]
    · intro e he
      simp at he


/-! ### Shuffle lemmas -/

theorem list_set_self {α : Type} (l : List α) :
    ∀ (i : Nat) (a : α), l[i]? = some a → l.set i a = l := by
  induction l with
  | nil => intro i a h; simp at h
  | cons x t ih =>
    intro i a h
    cases i with
    | zero =>
      simp at h
      simp [List.set, h]
    | succ n =>
      simp at h
      simp [List.set, ih n a h]

theorem cons_set_perm {α : Type} (xs : List α) :
    ∀ (k : Nat) (b x : α), xs[k]? = some b → (b :: xs.set k x).Perm (x :: xs) := by
  induction xs with
  | nil => intro k b x h; simp at h
  | cons y t ih =>
    intro k b x h
    cases k with
    | zero =>
      simp at h
      subst h
      exact List.Perm.swap x y t
    | succ n =>
      simp at h
      have h1 : (b :: y :: t.set n x).Perm (y :: b :: t.set n x) := List.Perm.swap y b _
      have h2 : (y :: b :: t.set n x).Perm (y :: x :: t) := List.Perm.cons y (ih n b x h)
      have h3 : (y :: x :: t).Perm (x :: y :: t) := List.Perm.swap x y t
      simpa [List.set] using h1.trans (h2.trans h3)

theorem set_set_perm {α : Type} (l : List α) :
    ∀ (i j : Nat) (a b : α), l[i]? = some a → l[j]? = some b →
      ((l.set i b).set j a).Perm l := by
  induction l with
  | nil => intro i j a b h _; simp at h
  | cons x t ih =>
    intro i j a b hi hj
    cases i with
    | zero =>
      simp at hi
      subst hi
      cases j with
      | zero =>
        simp at hj
        subst hj
        simp only [List.set]
        exact List.Perm.refl _
      | succ n =>
        simp at hj
        simpa [List.set] using cons_set_perm t n b x hj
    | succ m =>
      cases j with
      | zero =>
        simp at hi hj
        subst hj
        simpa [List.set] using cons_set_perm t m a x hi
      | succ n =>
        simp at hi hj
        simpa [List.set] using List.Perm.cons x (ih m n a b hi hj)

theorem swapIdx_perm (l : List String) (i j : Nat) : (swapIdx l i j).Perm l := by
  rcases hi : l[i]? with _ | a
  · rcases hj : l[j]? with _ | b
    · simp [swapIdx, hi, hj]
    · simp [swapIdx, hi, hj]
  · rcases hj : l[j]? with _ | b
    · simp [swapIdx, hi, hj]
    · have hred : swapIdx l i j = (l.set i b).set j a := by
        simp [swapIdx, hi, hj]
      rw [hred]
      exact set_set_perm l i j a b hi hj

theorem fyAux_perm (js : Nat → Nat) : ∀ (n : Nat) (l : List String), (fyAux js n l).Perm l := by
  intro n
  induction n with
  | zero => intro l; exact List.Perm.refl l
  | succ i ih =>
    intro l
    exact (ih _).trans (swapIdx_perm l (i + 1) (js (i + 1) % (i + 2)))

theorem fisherYates_perm (js : Nat → Nat) (l : List String) :
    (fisherYates js l).Perm l :=
  fyAux_perm js (l.length - 1) l

/-! ### Assignment lemmas -/

theorem mset_of_fresh {α : Type} (l : List (String × α)) (k : String) (v : α)
    (h : mget l k = none) : mset l k v = l ++ [(k, v)] := by
  induction l with
  | nil => simp [mset]
  | cons q rest ih =>
    obtain ⟨a, b⟩ := q
    by_cases ha : a = k
    · subst ha
      simp [mget] at h
    · simp [mget, ha] at h
      simp [mset, ha, ih h]

theorem mget_append_right {α : Type} (l1 l2 : List (String × α)) (k : String)
    (h : mget l1 k = none) : mget (l1 ++ l2) k = mget l2 k := by
  induction l1 with
  | nil => simp
  | cons q rest ih =>
    obtain ⟨a, b⟩ := q
    by_cases ha : a = k
    · subst ha
      simp [mget] at h
    · simp [mget, ha] at h ⊢
      exact ih h

theorem foldl_mset_fresh {α : Type} :
    ∀ (l : List (String × α)) (acc : List (String × α)),
      (∀ q ∈ l, mget acc q.1 = none) → (l.map Prod.fst).Nodup →
      l.foldl (fun a q => mset a q.1 q.2) acc = acc ++ l := by
  intro l
  induction l with
  | nil => intro acc _ _; simp
  | cons q rest ih =>
    intro acc hfresh hnd
    rw [List.map_cons] at hnd
    obtain ⟨hnotin, hnd'⟩ := List.nodup_cons.mp hnd
    have hq : mget acc q.1 = none := hfresh q (by simp)
    have hstep : mset acc q.1 q.2 = acc ++ [(q.1, q.2)] := mset_of_fresh acc q.1 q.2 hq
    have hfresh' : ∀ q' ∈ rest, mget (acc ++ [(q.1, q.2)]) q'.1 = none := by
      intro q' hq'
      have hne : q.1 ≠ q'.1 := by
        intro e
        exact hnotin (e ▸ List.mem_map_of_mem Prod.fst hq')
      rw [mget_append_right acc [(q.1, q.2)] q'.1 (hfresh q' (by simp [hq']))]
      simp [mget, hne]
    rw [List.foldl_cons, hstep, ih (acc ++ [(q.1, q.2)]) hfresh' hnd']
    simp

theorem zip_filter_nil {α : Type} :
    ∀ (pids : List String) (rs : List α) (pid : String), pid ∉ pids →
      (pids.zip rs).filter (fun q => decide (q.1 = pid)) = [] := by
  intro pids
  induction pids with
  | nil => intro rs pid _; simp
  | cons p pt ih =>
    intro rs pid hnot
    cases rs with
    | nil => simp
    | cons r rt =>
      have hne : ¬ p = pid := fun e => hnot (by simp [e])
      have hnot' : pid ∉ pt := fun h => hnot (by simp [h])
      rw [List.zip_cons_cons, List.filter_cons, if_neg (by simp [hne])]
      exact ih rt pid hnot'

theorem zip_filter_one {α : Type} :
    ∀ (pids : List String) (rs : List α), pids.Nodup → pids.length = rs.length →
      ∀ pid ∈ pids, ((pids.zip rs).filter (fun q => decide (q.1 = pid))).length = 1 := by
  intro pids
  induction pids with
  | nil => intro rs _ _ pid h; simp at h
  | cons p pt ih =>
    intro rs hnd hlen pid hmem
    cases rs with
    | nil => simp at hlen
    | cons r rt =>
      obtain ⟨hnotin, hnd'⟩ := List.nodup_cons.mp hnd
      rcases List.mem_cons.mp hmem with h | h
      · subst h
        rw [List.zip_cons_cons, List.filter_cons, if_pos (by simp),
          zip_filter_nil pt rt pid hnotin]
        rfl
      · have hne : ¬ p = pid := fun e => hnotin (by rw [e]; exact h)
        simp at hlen
        rw [List.zip_cons_cons, List.filter_cons, if_neg (by simp [hne])]
        exact ih rt hnd' hlen pid h

/-! ### Handler helper lemmas -/

/-- `checkGameEnd` never contributes an elimination event to a filter. -/
theorem checkGameEnd_filter_elim (s : GameState) :
    ((checkGameEnd s).2).filter isElimEvent = [] := by
  unfold checkGameEnd
  split
  · rfl
  · split
    · rfl
    · rfl

/-- Updating values under a condition never changes which keys are
registered. -/
theorem mget_isSome_valMap {α : Type} (g : String × α → α) (P : String × α → Bool) :
    ∀ (l : List (String × α)) (k : String),
      (mget (l.map (fun q => if P q then (q.1, g q) else q)) k).isSome
        = (mget l k).isSome := by
  intro l
  induction l with
  | nil => intro k; simp [mget]
  | cons q rest ih =>
    intro k
    obtain ⟨a, b⟩ := q
    rw [List.map_cons]
    by_cases hp : P (a, b) = true
    · rw [if_pos hp]
      by_cases ha : a = k
      · subst ha
        simp [mget]
      · simp [mget, ha]
        exact ih k
    · rw [if_neg hp]
      by_cases ha : a = k
      · subst ha
        simp [mget]
      · simp [mget, ha]
        exact ih k

/-- The `speak` context update touches values only, never keys: a
character is registered after `speak` iff it was registered before. -/
theorem mget_isSome_speak (chars : List (String × Character)) (s : GameState)
    (skip : String → Bool) (speaker message : String) (tp : Option (List String))
    (ts : String) (k : String) :
    (mget (speak chars s skip speaker message tp ts).characters k).isSome
      = (mget chars k).isSome := by
  exact mget_isSome_valMap
    (fun q => { q.2 with context := q.2.context ++ [speaker ++ ": " ++ message] })
    (fun q => match tp with
      | none => true
      | some l => l.contains q.2.id)
    chars k

/-- Whenever some listed werewolf has an AI character, the vote-collection
loop reaches `Map.filter` and throws. -/
theorem wwLoop_error (g : GameState) (chars : List (String × Character))
    (aw : List String) (dk : String → List String → GameContext → Option String) :
    ∀ (l : List String) (acc : List (String × String)),
      (∃ w ∈ l, (mget chars w).isSome = true) →
      wwLoop g chars aw dk l acc = Except.error "TypeError: .filter is not a function" := by
  intro l
  induction l with
  | nil => rintro acc ⟨w, hw, _⟩; simp at hw
  | cons w rest ih =>
    intro acc hex
    rcases hc : mget chars w with _ | c
    · obtain ⟨w', hw', hs⟩ := hex
      rcases List.mem_cons.mp hw' with h | h
      · subst h
        rw [hc] at hs
        simp at hs
      · rw [wwLoop, hc]
        exact ih acc ⟨w', h, hs⟩
    · rw [wwLoop, hc]
      rfl

/-! ### Claims -/

/-- Claim C2 counterexample: in the state `sAllDead` every player is dead,
so the living-non-werewolf count is zero, yet `checkGameEnd` emits
`ended('villagers')`, not `ended('werewolves')` — the claimed
"if and only if" for the werewolf side fails. -/
theorem checkGameEnd_iff_counterexample :
    livingNonWerewolfCount sAllDead = 0
    ∧ checkGameEnd sAllDead ≠ (true, [GEvent.gameEnded "werewolves"]) := by
  decide

/-- Claim C2 (amended): `checkGameEnd` returns true and emits
`ended('villagers')` iff the living-werewolf count is 0; it returns true
and emits `ended('werewolves')` iff the living-non-werewolf count is 0
while some werewolf is still alive (when both counts are zero the
villager branch wins); otherwise it returns false and emits nothing. -/
theorem checkGameEnd_iff (s : GameState) :
    (checkGameEnd s = (true, [GEvent.gameEnded "villagers"])
      ↔ livingWerewolfCount s = 0)
    ∧ (checkGameEnd s = (true, [GEvent.gameEnded "werewolves"])
      ↔ (livingNonWerewolfCount s = 0 ∧ livingWerewolfCount s ≠ 0))
    ∧ (checkGameEnd s = (false, [])
      ↔ (livingWerewolfCount s ≠ 0 ∧ livingNonWerewolfCount s ≠ 0)) := by
  unfold checkGameEnd
  by_cases h1 : livingWerewolfCount s = 0
  · rw [if_pos h1]
    exact ⟨⟨fun _ => h1, fun _ => rfl⟩,
      ⟨fun he => absurd he (by decide), fun hk => absurd h1 hk.2⟩,
      ⟨fun he => absurd he (by decide), fun hk => absurd h1 hk.1⟩⟩
  · by_cases h2 : livingNonWerewolfCount s = 0
    · rw [if_neg h1, if_pos h2]
      exact ⟨⟨fun he => absurd he (by decide), fun h0 => absurd h0 h1⟩,
        ⟨fun _ => ⟨h2, h1⟩, fun _ => rfl⟩,
        ⟨fun he => absurd he (by decide), fun hk => absurd h2 hk.2⟩⟩
    · rw [if_neg h1, if_neg h2]
      exact ⟨⟨fun he => absurd he (by decide), fun h0 => absurd h0 h1⟩,
        ⟨fun he => absurd he (by decide), fun hk => absurd hk.1 h2⟩,
        ⟨fun _ => ⟨h1, h2⟩, fun _ => rfl⟩⟩

/-- `processVotes` when the scan finds no winner (empty tally): nobody is
killed, the ballot is cleared, only `checkGameEnd` events fire. -/
theorem processVotesStep_none (s : GameState)
    (h : (scanMax (tallyVotes s.votes) 0 none).2 = none) :
    processVotesStep s
      = ⟨{ s with votes := [] }, (checkGameEnd { s with votes := [] }).2,
          if (checkGameEnd { s with votes := [] }).1 then none
          else if s.isNight then some Call.processSeer
          else some Call.startNight⟩ := by
  simp only [processVotesStep, h]
  rfl

/-- `processVotes` when the scan finds a truthy winner `w`: the winner is
killed, `playerEliminated` fires, the ballot is cleared. -/
theorem processVotesStep_kill (s : GameState) (w : String)
    (hscan : (scanMax (tallyVotes s.votes) 0 none).2 = some w)
    (hne : w ≠ "") :
    processVotesStep s
      = ⟨{ (killPlayer s w).1 with votes := [] },
          ((killPlayer s w).2 ++ [GEvent.playerEliminated w])
            ++ (checkGameEnd { (killPlayer s w).1 with votes := [] }).2,
          if (checkGameEnd { (killPlayer s w).1 with votes := [] }).1 then none
          else if ({ (killPlayer s w).1 with votes := [] } : GameState).isNight
          then some Call.processSeer
          else some Call.startNight⟩ := by
  simp only [processVotesStep, hscan]
  rw [if_pos hne]

/-- Claim C1: on a ballot where every living player has voted exactly once
(ballot targets being nonempty player ids), `processVotes` clears the vote
map; with an empty ballot (empty tally) no elimination happens and the
players are untouched; with a nonempty ballot exactly one
`playerEliminated` fires, for the target `w` the scan selects, which is
the first entry of the tally (in tally-discovery order) to reach the
maximum vote count: every earlier tally entry counts strictly fewer
votes, every later one at most as many, and the tally counts agree with
the per-target vote counts.  The winner alone is marked dead; every other
player record is unchanged. -/
theorem processVotes_plurality (s : GameState)
    (_hnd : (s.votes.map Prod.fst).Nodup)
    (_hall : ∀ q ∈ s.players, (q.2.isAlive = true ↔ q.1 ∈ s.votes.map Prod.fst))
    (_hvp : ∀ v ∈ s.votes, v.1 ∈ s.players.map Prod.fst)
    (htgt : ∀ v ∈ s.votes, v.2 ≠ "" ∧ v.2 ∈ s.players.map Prod.fst) :
    (processVotesStep s).state.votes = []
    ∧ (s.votes = [] →
        (processVotesStep s).state.players = s.players
        ∧ (processVotesStep s).events.filter isElimEvent = [])
    ∧ (s.votes ≠ [] →
        ∃ w c l1 l2,
          tallyVotes s.votes = l1 ++ (w, c) :: l2
          ∧ (scanMax (tallyVotes s.votes) 0 none).2 = some w
          ∧ c = (s.votes.map Prod.snd).count w
          ∧ (∀ p ∈ l1, p.2 < c)
          ∧ (∀ p ∈ l2, p.2 ≤ c)
          ∧ (∀ t k, (t, k) ∈ tallyVotes s.votes → k = (s.votes.map Prod.snd).count t)
          ∧ (processVotesStep s).events.filter isElimEvent = [GEvent.playerEliminated w]
          ∧ (∃ pl, mget s.players w = some pl
              ∧ mget (processVotesStep s).state.players w
                  = some { pl with isAlive := false })
          ∧ (∀ pid, pid ≠ w →
              mget (processVotesStep s).state.players pid = mget s.players pid)) := by
  refine ⟨rfl, ?_, ?_⟩
  · intro hv
    have hscan0 : (scanMax (tallyVotes s.votes) 0 none).2 = none := by
      rw [hv]
      rfl
    have hstep := processVotesStep_none s hscan0
    constructor
    · rw [hstep]
    · rw [hstep]
      exact checkGameEnd_filter_elim _
  · intro hv
    obtain ⟨v0, vrest, hv0⟩ := List.exists_cons_of_ne_nil hv
    have ht0 : v0.2 ∈ s.votes.map Prod.snd := by
      rw [hv0]
      exact List.mem_map_of_mem _ (by simp)
    have ht0k : v0.2 ∈ (tallyVotes s.votes).map Prod.fst := (tallyVotes_keys _ _).mpr ht0
    obtain ⟨k0, hk0⟩ := mem_keys_exists_mget _ _ ht0k
    have hmem0 : (v0.2, k0) ∈ tallyVotes s.votes := mem_of_mget _ _ _ hk0
    have hpos0 : 0 < k0 := tallyVotes_entry_pos _ _ _ hmem0
    obtain ⟨l1, w, c, l2, heq, hscan, hc0, hl1, hl2⟩ :=
      scanMax_high (tallyVotes s.votes) 0 none ⟨(v0.2, k0), hmem0, hpos0⟩
    have hscan2 : (scanMax (tallyVotes s.votes) 0 none).2 = some w := by rw [hscan]
    have hwmem : (w, c) ∈ tallyVotes s.votes := by
      rw [heq]
      exact List.mem_append_right _ (List.mem_cons_self _ _)
    have hwt : w ∈ s.votes.map Prod.snd :=
      (tallyVotes_keys _ _).mp (List.mem_map_of_mem Prod.fst hwmem)
    obtain ⟨v, hvmem, hveq⟩ := List.mem_map.mp hwt
    obtain ⟨hvne, hvpl⟩ := htgt v hvmem
    rw [hveq] at hvne hvpl
    obtain ⟨pl, hpl⟩ := mem_keys_exists_mget s.players w hvpl
    have hstep := processVotesStep_kill s w hscan2 hvne
    have hkill : killPlayer s w
        = ({ s with
              players := s.players.map (fun q =>
                if q.1 = w then (q.1, { q.2 with isAlive := false }) else q),
              deadPlayers := sadd s.deadPlayers w },
           [GEvent.playerDied w]) := by
      unfold killPlayer
      rw [hpl]
    refine ⟨w, c, l1, l2, heq, hscan2, tallyVotes_entry_count _ _ _ hwmem, hl1, hl2,
      fun t k hk => tallyVotes_entry_count _ _ _ hk, ?_, ?_, ?_⟩
    · rw [hstep, hkill]
      simp [isElimEvent, List.filter_append, checkGameEnd_filter_elim]
    · refine ⟨pl, hpl, ?_⟩
      have hm := mget_map_if_self s.players w (fun p => { p with isAlive := false })
      rw [hpl] at hm
      simp only [Option.map_some'] at hm
      rw [hstep, hkill]
      exact hm
    · intro pid hpid
      rw [hstep, hkill]
      exact mget_map_if_ne s.players w pid (fun p => { p with isAlive := false }) hpid

/-- Witness for C1 at the concrete ballot `sW`: the ballot is cleared and
the sole elimination is `b`, the first target to reach the maximum. -/
theorem processVotes_plurality_witness :
    (processVotesStep sW).state.votes = []
    ∧ (processVotesStep sW).events.filter isElimEvent = [GEvent.playerEliminated "b"] := by
  have h := processVotes_plurality sW (by decide) (by decide) (by decide) (by decide)
  obtain ⟨w, c, l1, l2, heq, hscan, hcnt, hl1, hl2, hall2, hfil, hkillw, hoth⟩ :=
    h.2.2 (by decide)
  have hb : (scanMax (tallyVotes sW.votes) 0 none).2 = some "b" := by decide
  have hw : w = "b" := Option.some.inj (hscan.symm.trans hb)
  exact ⟨h.1, by rw [hfil, hw]⟩

/-- Claim C4: for every player count `3 ≤ n ≤ 20`, the role counts are
`werewolves = ceil(n/3)` (characterised by `n ≤ 3w < n + 3`), one seer
and one witch from 6 players, one hunter from 9, villagers the
remainder; the counts sum exactly to `n` with `villagers ≥ 0`; the pool
holds exactly `n` roles; the Fisher-Yates shuffle permutes the pool for
every random stream; and zipping the roster with the shuffled pool gives
every player exactly one role, the assigned roles being a permutation of
the pool. -/
theorem assignRoles_spec (n : Nat) (js : Nat → Nat) (s : GameState)
    (h3 : 3 ≤ n) (h20 : n ≤ 20) (hlen : s.players.length = n)
    (hnd : (s.players.map Prod.fst).Nodup) (hempty : s.roles = []) :
    ((numWerewolves n : Int) + numSeers n + numWitches n + numHunters n
        + numVillagers n = n)
    ∧ 0 ≤ numVillagers n
    ∧ (n ≤ 3 * numWerewolves n ∧ 3 * numWerewolves n < n + 3)
    ∧ (rolePool n).length = n
    ∧ (fisherYates js (rolePool n)).Perm (rolePool n)
    ∧ (assignRoles js s).roles
        = (s.players.map Prod.fst).zip (fisherYates js (rolePool n))
    ∧ ((assignRoles js s).roles.map Prod.snd).Perm (rolePool n)
    ∧ (∀ pid ∈ s.players.map Prod.fst,
        ((assignRoles js s).roles.filter (fun q => decide (q.1 = pid))).length = 1) := by
  have hsum : (numWerewolves n : Int) + numSeers n + numWitches n + numHunters n
      + numVillagers n = n := by
    unfold numVillagers
    ring
  have hvill : 0 ≤ numVillagers n := by
    unfold numVillagers numWerewolves numSeers numWitches numHunters
    interval_cases n <;> decide
  have hceil : n ≤ 3 * numWerewolves n ∧ 3 * numWerewolves n < n + 3 := by
    unfold numWerewolves
    omega
  have hpool : (rolePool n).length = n := by
    unfold rolePool numVillagers numWerewolves numSeers numWitches numHunters
    interval_cases n <;> decide
  have hperm : (fisherYates js (rolePool n)).Perm (rolePool n) :=
    fisherYates_perm js (rolePool n)
  have hslen : (fisherYates js (rolePool n)).length = n := by
    rw [hperm.length_eq, hpool]
  have hplen : (s.players.map Prod.fst).length = n := by
    rw [List.length_map, hlen]
  have hroles : (assignRoles js s).roles
      = (s.players.map Prod.fst).zip (fisherYates js (rolePool n)) := by
    simp only [assignRoles, hempty]
    rw [hplen]
    rw [foldl_mset_fresh _ [] (fun q _ => by simp [mget]) ?_]
    · simp
    · rw [List.map_fst_zip _ _ (by rw [hplen, hslen])]
      exact hnd
  have hsnd : ((s.players.map Prod.fst).zip (fisherYates js (rolePool n))).map Prod.snd
      = fisherYates js (rolePool n) :=
    List.map_snd_zip _ _ (by rw [hplen, hslen])
  refine ⟨hsum, hvill, hceil, hpool, hperm, hroles, ?_, ?_⟩
  · rw [hroles, hsnd]
    exact hperm
  · intro pid hpid
    rw [hroles]
    exact zip_filter_one (s.players.map Prod.fst) (fisherYates js (rolePool n))
      hnd (by rw [hplen, hslen]) pid hpid

/-- Witness for C4 at `n = 7` with seven distinct players and the
degenerate random stream `js0`. -/
theorem assignRoles_spec_witness :
    ((assignRoles js0 s4).roles.map Prod.snd).Perm (rolePool 7)
    ∧ 0 ≤ numVillagers 7
    ∧ (rolePool 7).length = 7
    ∧ (∀ pid ∈ s4.players.map Prod.fst,
        ((assignRoles js0 s4).roles.filter (fun q => decide (q.1 = pid))).length = 1) := by
  have h := assignRoles_spec 7 js0 s4 (by decide) (by decide) (by decide) (by decide) rfl
  exact ⟨h.2.2.2.2.2.2.1, h.2.1, h.2.2.2.1, h.2.2.2.2.2.2.2⟩

/-- Claim C5 counterexample: in `s5` the dead player `a` still has a
recorded (stale) vote.  When living `b` votes, the ballot size (2)
equals the living count (2), so `processVotes` is invoked — yet the
living player `c` has no recorded vote.  The round therefore does not
resolve "exactly when every currently-alive player has a recorded
vote". -/
theorem vote_trigger_counterexample :
    vote s5 "b" "c"
        = Except.ok ({ s5 with votes := mset s5.votes "b" "c" },
            [GEvent.voteCast "b" "c"], some Call.processVotes)
    ∧ "c" ∉ (mset s5.votes "b" "c").map Prod.fst
    ∧ mget s5.players "c" = some (mkP "c" true) := by
  refine ⟨rfl, by decide, by decide⟩

/-- Claim C5 (amended): `vote` throws for an unknown or dead voter before
any mutation; for a living voter it records the vote (replacing any prior
vote by the same voter, leaving other entries untouched) and invokes
`processVotes` exactly when the number of ballot entries equals the
number of currently-alive players (which coincides with "every living
player has voted" only when every recorded voter is still alive). -/
theorem vote_contract (s : GameState) (voterId targetId : String) :
    (mget s.players voterId = none →
      vote s voterId targetId
        = Except.error "TypeError: cannot read isAlive of undefined")
    ∧ (∀ p, mget s.players voterId = some p → p.isAlive = false →
        vote s voterId targetId = Except.error "Dead players cannot vote")
    ∧ (∀ p, mget s.players voterId = some p → p.isAlive = true →
        ∃ k, vote s voterId targetId
            = Except.ok ({ s with votes := mset s.votes voterId targetId },
                [GEvent.voteCast voterId targetId], k)
          ∧ mget (mset s.votes voterId targetId) voterId = some targetId
          ∧ (∀ v, v ≠ voterId →
              mget (mset s.votes voterId targetId) v = mget s.votes v)
          ∧ (k = some Call.processVotes
              ↔ (mset s.votes voterId targetId).length
                  = ((s.players.filter (fun q => q.2.isAlive)).map Prod.fst).length)) := by
  refine ⟨?_, ?_, ?_⟩
  · intro h
    simp only [vote, h]
  · intro p hp hdead
    simp only [vote, hp]
    rw [if_neg (by simp [hdead])]
  · intro p hp halive
    have hv : vote s voterId targetId
        = (if (mset s.votes voterId targetId).length
              = ((s.players.filter (fun q => q.2.isAlive)).map Prod.fst).length
          then Except.ok ({ s with votes := mset s.votes voterId targetId },
                [GEvent.voteCast voterId targetId], some Call.processVotes)
          else Except.ok ({ s with votes := mset s.votes voterId targetId },
                [GEvent.voteCast voterId targetId], none)) := by
      simp only [vote, hp]
      rw [if_pos halive]
    by_cases hl : (mset s.votes voterId targetId).length
        = ((s.players.filter (fun q => q.2.isAlive)).map Prod.fst).length
    · exact ⟨some Call.processVotes, by rw [hv, if_pos hl], mget_mset_self _ _ _,
        fun v hv' => mget_mset_ne _ _ _ _ hv', iff_of_true rfl hl⟩
    · exact ⟨none, by rw [hv, if_neg hl], mget_mset_self _ _ _,
        fun v hv' => mget_mset_ne _ _ _ _ hv', iff_of_false (by simp) hl⟩

/-- Witness for C5 at `s5`: living voter `b` gets the recorded vote and
the round is triggered. -/
theorem vote_contract_witness :
    vote s5 "b" "c"
      = Except.ok ({ s5 with votes := mset s5.votes "b" "c" },
          [GEvent.voteCast "b" "c"], some Call.processVotes) := by
  obtain ⟨k, hk, _, _, hiff⟩ :=
    (vote_contract s5 "b" "c").2.2 (mkP "b" true) (by decide) (by decide)
  have hkp : k = some Call.processVotes := hiff.mpr (by decide)
  rw [hkp] at hk
  exact hk

/-- Claim C6: after `gameEnded` has been emitted (state `sEnd`, whose lone
werewolf is dead) there is no terminal guard: `startNight` succeeds and
silently mutates the state, `processNextSpeaker` and `processVotes`
succeed (the latter re-emitting `gameEnded`), and `startDay` mutates the
state and then crashes only because `announceDeaths` does not exist. -/
theorem terminal_no_guard :
    (checkGameEnd sEnd).1 = true
    ∧ step sEnd Call.startNight
        = Except.ok ⟨{ sEnd with isNight := true, phase := "night" },
            [GEvent.nightStarted 2], some Call.processWerewolves⟩
    ∧ ({ sEnd with isNight := true, phase := "night" } : GameState) ≠ sEnd
    ∧ step sEnd Call.processNextSpeaker
        = Except.ok ⟨sEnd, [], some Call.processAllPlayersSpoken⟩
    ∧ step sEnd Call.processVotes
        = Except.ok ⟨{ sEnd with votes := [] }, [GEvent.gameEnded "villagers"], none⟩
    ∧ (run 2 sEnd (some Call.startDay)).outcome
        = Outcome.errored "TypeError: this.announceDeaths is not a function"
    ∧ (run 2 sEnd (some Call.startDay)).state ≠ sEnd := by
  refine ⟨rfl, rfl, by decide, rfl, rfl, rfl, by decide⟩

/-- Claim C7: draining the day speaker queue at `s7` calls
`processAllPlayersSpoken`, which jumps straight to night (the werewolf
sub-phase begins and `nightStarted` fires) — no voting round is started —
and no pop ever sets `hasSpoken`: after the whole cascade, and after a
pop at `s7b`, every player still has `hasSpoken = false`. -/
theorem speakerQueue_divergence :
    step s7 Call.processNextSpeaker
        = Except.ok ⟨s7, [], some Call.processAllPlayersSpoken⟩
    ∧ run 8 s7 (some Call.processNextSpeaker)
        = ⟨{ s7 with
              isNight := true
              phase := "night"
              currentSpeaker := some "ai_1" },
           [GEvent.nightStarted 1, GEvent.werewolvesPhaseStarted ["ai_1"],
            GEvent.nextSpeaker "ai_1"], Outcome.finished⟩
    ∧ (∀ q ∈ (run 8 s7 (some Call.processNextSpeaker)).state.players,
        q.2.hasSpoken = false)
    ∧ step s7b Call.processNextSpeaker
        = Except.ok ⟨{ s7b with currentSpeaker := some "ai_2", speakQueue := [] },
            [GEvent.nextSpeaker "ai_2"], none⟩
    ∧ (∀ q ∈ ({ s7b with
          currentSpeaker := some "ai_2"
          speakQueue := [] } : GameState).players, q.2.hasSpoken = false) := by
  refine ⟨rfl, rfl, by decide, rfl, by decide⟩

/-- Claim C8: `handleHumanInput` processes the input iff the sender is
the current speaker.  Any other sender leaves the whole manager state
unchanged, with no message sent; for the current speaker (with a speaker
still queued) the message is spoken publicly and the queue advances by
one pop. -/
theorem handleHumanInput_gate (fuel : Nat) (m : ManagerSt) (skip : String → Bool)
    (playerId message ts : String) :
    (m.game.currentSpeaker ≠ some playerId →
      handleHumanInput fuel m skip playerId message ts
        = ⟨m.game, m.characters, m.witchPotions, [], [], none⟩)
    ∧ (m.game.currentSpeaker = some playerId →
        ∀ x rest, m.game.speakQueue = x :: rest → 0 < fuel →
          handleHumanInput fuel m skip playerId message ts
            = ⟨{ m.game with currentSpeaker := some x, speakQueue := rest },
               (speak m.characters m.game skip playerId message none ts).characters,
               m.witchPotions,
               [(speak m.characters m.game skip playerId message none ts).gl],
               [GEvent.nextSpeaker x], none⟩
          ∧ (speak m.characters m.game skip playerId message none ts).gl.message
              = message) := by
  constructor
  · intro h
    simp only [handleHumanInput]
    rw [if_neg h]
  · intro h x rest hq hf
    cases fuel with
    | zero => omega
    | succ n =>
      constructor
      · simp only [handleHumanInput]
        rw [if_pos h]
        simp only [run, step, hq, List.append_nil]
      · rfl

/-- Witness for C8 at `m8`: input from `ai_9` (not the current speaker)
is dropped without any state change; input from the current speaker `h1`
is spoken and advances the queue to `ai_1`. -/
theorem handleHumanInput_gate_witness :
    handleHumanInput 3 m8 skip0 "ai_9" "hello" "t0"
      = ⟨m8.game, m8.characters, m8.witchPotions, [], [], none⟩
    ∧ handleHumanInput 3 m8 skip0 "h1" "i vote b" "t0"
      = ⟨{ m8.game with currentSpeaker := some "ai_1", speakQueue := [] },
         (speak m8.characters m8.game skip0 "h1" "i vote b" none "t0").characters,
         m8.witchPotions,
         [(speak m8.characters m8.game skip0 "h1" "i vote b" none "t0").gl],
         [GEvent.nextSpeaker "ai_1"], none⟩ := by
  constructor
  · exact (handleHumanInput_gate 3 m8 skip0 "ai_9" "hello" "t0").1 (by decide)
  · exact ((handleHumanInput_gate 3 m8 skip0 "h1" "i vote b" "t0").2 (by decide)
      "ai_1" [] (by decide) (by decide)).1

/-- Claim C9 counterexample: in `m9` the only living werewolf is the
human `h1`, who has no AI character, so `handleWerewolvesPhase` finishes
without raising any type error — the claim's "always raises a type
error" fails for states whose living werewolves are all human. -/
theorem mapOnMap_counterexample :
    (handleWerewolvesPhase m9 skip0 "t0" ["h1"] dk0).err = none
    ∧ (handleWerewolvesPhase m9 skip0 "t0" ["h1"] dk0).game = m9.game
    ∧ mget m9.game.players "h1" = some ⟨"h1", false, "Human Player", true, false⟩
    ∧ mget m9.game.roles "h1" = some "werewolf" := by
  refine ⟨rfl, rfl, rfl, rfl⟩

/-- Claim C9 (amended): whenever at least one werewolf passed to
`handleWerewolvesPhase` has an AI character (resp. the seer passed to
`handleSeerPhase` has one), the handler raises `TypeError` — the array
method `.filter` called on the `Map` returned by `getLivingPlayers` —
before any victim is killed or any investigation completes: the game
state is exactly the input state. -/
theorem mapOnMap_typeError (m : ManagerSt) (skip : String → Bool) (ts : String)
    (werewolves : List String)
    (decideKill : String → List String → GameContext → Option String)
    (seerId : String) (decideCheck : List String → GameContext → Option String) :
    ((∃ w ∈ werewolves, (mget m.characters w).isSome = true) →
      (handleWerewolvesPhase m skip ts werewolves decideKill).err
          = some "TypeError: .filter is not a function"
      ∧ (handleWerewolvesPhase m skip ts werewolves decideKill).game = m.game)
    ∧ ((mget m.characters seerId).isSome = true →
      (handleSeerPhase m skip ts seerId decideCheck).err
          = some "TypeError: .filter is not a function"
      ∧ (handleSeerPhase m skip ts seerId decideCheck).game = m.game) := by
  constructor
  · intro hex
    obtain ⟨w, hw, hs⟩ := hex
    have hs' : (mget (speak m.characters m.game skip "Moderator"
        "Werewolves, open your eyes and choose your victim."
        (some werewolves) ts).characters w).isSome = true := by
      rw [mget_isSome_speak]
      exact hs
    have herr := wwLoop_error m.game
      (speak m.characters m.game skip "Moderator"
        "Werewolves, open your eyes and choose your victim."
        (some werewolves) ts).characters
      werewolves decideKill werewolves [] ⟨w, hw, hs'⟩
    constructor
    · simp only [handleWerewolvesPhase]
      rw [herr]
    · simp only [handleWerewolvesPhase]
      rw [herr]
  · intro hs
    obtain ⟨c, hc⟩ := Option.isSome_iff_exists.mp hs
    constructor
    · simp only [handleSeerPhase, hc, getLivingPlayers, collFilter]
    · simp only [handleSeerPhase, hc, getLivingPlayers, collFilter]

/-- Witness for C9 at `m9w`: the AI werewolf `ai_1` and the AI seer
`ai_2` both crash their phase with the Map/Array `TypeError`. -/
theorem mapOnMap_witness :
    (handleWerewolvesPhase m9w skip0 "t0" ["ai_1"] dk0).err
        = some "TypeError: .filter is not a function"
    ∧ (handleSeerPhase m9w skip0 "t0" "ai_2" dc0).err
        = some "TypeError: .filter is not a function" := by
  have h := mapOnMap_typeError m9w skip0 "t0" ["ai_1"] dk0 "ai_2" dc0
  exact ⟨(h.1 ⟨"ai_1", by decide, by decide⟩).1, (h.2 (by decide)).1⟩

/-- Claim C3: with the witch `ai_1` holding both potions on a night where
`ai_2` died, `handleWitchPhase` throws `TypeError` (the array method
`.map` called on the `Map` returned by `getLivingPlayers`) before the
witch decision is consulted: the game state and both potions are
untouched, whatever the intended decision was.  And with the antidote
already spent (`mC3b`), the entire decision block is skipped, so the
unused poison is never offered at all. -/
theorem witchPhase_bug :
    (handleWitchPhase mC3 skip0 "t0" "ai_1" dec3).err
        = some "TypeError: .map is not a function"
    ∧ (handleWitchPhase mC3 skip0 "t0" "ai_1" dec3).game = mC3.game
    ∧ (handleWitchPhase mC3 skip0 "t0" "ai_1" dec3).potions = mC3.witchPotions
    ∧ mget mC3.witchPotions "ai_1" = some ⟨true, true⟩
    ∧ mC3.game.deadPlayers = ["ai_2"]
    ∧ (handleWitchPhase mC3b skip0 "t0" "ai_1" dec3).err = none
    ∧ (handleWitchPhase mC3b skip0 "t0" "ai_1" dec3).game = mC3b.game
    ∧ (handleWitchPhase mC3b skip0 "t0" "ai_1" dec3).potions = mC3b.witchPotions
    ∧ mget mC3b.witchPotions "ai_1" = some ⟨false, true⟩ := by
  refine ⟨rfl, rfl, rfl, rfl, rfl, rfl, rfl, rfl, rfl⟩

/-- Claim C10: two `speak` calls differing only in the audience argument
send identical `speaker_info` and `game_log` messages to the connection
except for `isPrivate` (which records only whether an audience was
given), request the same synthesis, and the full message content is
always sent; the audience gates only which AI characters receive the
line in their context buffer (all of them when the audience is `null`,
exactly the listed ids otherwise). -/
theorem speak_audience_invariance (chars : List (String × Character)) (s : GameState)
    (skip : String → Bool) (speaker message : String)
    (t1 t2 : Option (List String)) (ts : String) :
    (speak chars s skip speaker message t1 ts).si
        = (speak chars s skip speaker message t2 ts).si
    ∧ (speak chars s skip speaker message t1 ts).gl.speaker
        = (speak chars s skip speaker message t2 ts).gl.speaker
    ∧ (speak chars s skip speaker message t1 ts).gl.message = message
    ∧ (speak chars s skip speaker message t2 ts).gl.message = message
    ∧ (speak chars s skip speaker message t1 ts).gl.timestamp
        = (speak chars s skip speaker message t2 ts).gl.timestamp
    ∧ (speak chars s skip speaker message t1 ts).gl.isPrivate = t1.isSome
    ∧ (speak chars s skip speaker message t2 ts).gl.isPrivate = t2.isSome
    ∧ (speak chars s skip speaker message t1 ts).tts
        = (speak chars s skip speaker message t2 ts).tts
    ∧ (∀ q ∈ chars, (t1 = none ∨ q.2.id ∈ t1.getD []) →
        (q.1, { q.2 with context := q.2.context ++ [speaker ++ ": " ++ message] })
          ∈ (speak chars s skip speaker message t1 ts).characters)
    ∧ (∀ q ∈ chars, t1 ≠ none → q.2.id ∉ t1.getD [] →
        q ∈ (speak chars s skip speaker message t1 ts).characters) := by
  refine ⟨rfl, rfl, rfl, rfl, rfl, rfl, rfl, rfl, ?_, ?_⟩
  · intro q hq hcond
    refine List.mem_map.mpr ⟨q, hq, ?_⟩
    cases t1 with
    | none => rfl
    | some ll =>
      rcases hcond with h | h
      · exact Option.noConfusion h
      · show (if ll.contains q.2.id = true then
            (q.1, { q.2 with context := q.2.context ++ [speaker ++ ": " ++ message] })
          else q)
          = (q.1, { q.2 with context := q.2.context ++ [speaker ++ ": " ++ message] })
        exact if_pos (List.elem_iff.mpr h)
  · intro q hq h1 h2
    refine List.mem_map.mpr ⟨q, hq, ?_⟩
    cases t1 with
    | none => exact absurd rfl h1
    | some ll =>
      show (if ll.contains q.2.id = true then
          (q.1, { q.2 with context := q.2.context ++ [speaker ++ ": " ++ message] })
        else q)
        = q
      exact if_neg (fun hc => h2 (List.elem_iff.mp hc))

/-- Witness for C10: for the restricted audience `["ai_1"]` the in-scope
character `ai_1` receives the narration line in its context buffer. -/
theorem speak_audience_invariance_witness :
    ("ai_1", { mkC "ai_1" "witch" with context := ["Moderator: hi"] })
      ∈ (speak mC3.characters mC3.game skip0 "Moderator" "hi"
          (some ["ai_1"]) "t0").characters := by
  have h := speak_audience_invariance mC3.characters mC3.game skip0 "Moderator" "hi"
    (some ["ai_1"]) none "t0"
  obtain ⟨_, _, _, _, _, _, _, _, hrecv, _⟩ := h
  have := hrecv ("ai_1", mkC "ai_1" "witch") (by decide) (by decide)
  simpa [mkC] using this

end WerewolfGame
